import Mathlib

/-!
# Verification of the `langchain-mcp-adapter` demonstration script

A shallow embedding of `src/main.py`: a one-shot orchestration that

1. loads a local settings source into the process environment (`load_dotenv()`),
2. constructs the chat client (`ChatAnthropic(...)`, fails without a credential),
3. builds a constant launch specification (`stdio_server_params`),
4. inside `main()`: prints a banner, opens the stdio transport to the child
   tool-server process (`async with stdio_client(...)`), opens a protocol
   session (`async with ClientSession(...)`), performs the handshake
   (`session.initialize()`), prints a confirmation, fetches the capability
   list (`load_mcp_tools(session)`), prints the capability names, builds a
   react agent, invokes it on the fixed question, and prints the content of
   the last element of `result["messages"]`.

The script itself contains no exception handling; all collaborators are
external libraries, modelled here from the specification's contracts.  A run
is a function from a `World` (the outcomes the external collaborators would
produce) to a trace of observable events together with an `Except` outcome.
-/

/-- A chat message: role plus text content (`HumanMessage` / answers). -/
structure Msg where
  role : String
  content : String
deriving DecidableEq, Repr

/-- A capability/tool descriptor as seen by the reasoning loop. -/
structure Tool where
  name : String
deriving DecidableEq, Repr

/-- The distinct failures the collaborators can raise through `main.py`,
which catches none of them. -/
inductive Err where
  | missingCredential
  | launchFailure
  | handshakeFailure
  | notInitialized
  | toolLoadFailure
  | agentFailure
  | emptyMessages
deriving DecidableEq, Repr

/-- Observable events of one run: stdout lines and resource/transport
actions. -/
inductive Event where
  | printedLine (s : String)
  | printedToolNames (names : List String)
  | printedAnswer (s : String)
  | spawnedChild
  | terminatedChild
  | streamsClosed
  | handshakeDone
  | capabilityFetch
  | agentInvoked
deriving DecidableEq, Repr

/-- The process environment, a finite string-keyed map (`os.environ`). -/
def Env : Type := List (String × String)

/-- Read a key from the process environment (`os.environ.get`). -/
def getEnv : List (String × String) → String → Option String
  | [], _ => none
  | (k0, v0) :: rest, k => if k0 = k then some v0 else getEnv rest k

/-- Write a key into the process environment (`os.environ[k] = v`). -/
def setEnv : List (String × String) → String → String → List (String × String)
  | [], k, v => [(k, v)]
  | (k0, v0) :: rest, k, v =>
      if k0 = k then (k, v) :: rest else (k0, v0) :: setEnv rest k v

/-- Modelled from the spec: `load_dotenv()` (the `python-dotenv` library is
not part of this repository).  "Reads a local key-value settings source (if
present) and populates process-wide environment state; absence of the source
is not an error — absent keys are simply unset." -/
def load_dotenv (source : Option (List (String × String)))
    (env : List (String × String)) : List (String × String) :=
  match source with
  | none => env
  | some kvs => kvs.foldl (fun e kv => setEnv e kv.1 kv.2) env

/-- The value the settings source assigns to a key: its last binding wins,
mirroring sequential environment writes. -/
def lastLookup : List (String × String) → String → Option String
  | [], _ => none
  | (k0, v0) :: rest, k =>
      match lastLookup rest k with
      | some v => some v
      | none => if k0 = k then some v0 else none

/-- A well-formed settings source binds each key at most once. -/
def wellFormedSource (kvs : List (String × String)) : Prop :=
  (kvs.map Prod.fst).Nodup

/-- The credential environment variable the chat client reads. -/
def apiKeyName : String := "ANTHROPIC_API_KEY"

/-- Modelled from the spec: construction of the chat client
(`ChatAnthropic(model="claude-sonnet-4-20250514")`, external to this
repository) "fails fatally" when the credential environment variable is
absent from the process environment. -/
def chatAnthropic (env : List (String × String)) : Except Err Unit :=
  match getEnv env apiKeyName with
  | none => Except.error Err.missingCredential
  | some _ => Except.ok ()

/-- The launch specification type (`StdioServerParameters`). -/
structure StdioServerParameters where
  command : String
  args : List String
deriving DecidableEq, Repr

/-- The hard-coded path of the tool-server script, from `src/main.py`. -/
def scriptPath : String :=
  "/Users/kohei/source-code/ai-practice/langchain-mcp-adapter/servers/math_server.py"

/-- The constant launch specification built at module load (`src/main.py`,
lines 42-45). -/
def stdio_server_params : StdioServerParameters :=
  { command := "python", args := [scriptPath] }

/-- Base names of the files of this repository's source tree
(`main.py` and `servers/__init__.py`). -/
def repoSourceFileNames : List String := ["main.py", "__init__.py"]

/-- A protocol session: its only state visible to this script is whether the
handshake has completed. -/
structure ClientSession where
  initialized : Bool
deriving DecidableEq, Repr

/-- A freshly constructed session has not completed its handshake. -/
def mkSession : ClientSession := { initialized := false }

/-- Modelled from the spec: the capability query
(`load_mcp_tools(session)`, external to this repository) "must never be
fetched before `initialize()` has completed ... attempting to do so must
fail fatally rather than silently returning a partial/empty list"; on an
initialized session it returns the child's declared tool descriptors. -/
def load_mcp_tools (s : ClientSession) (toolsOk : Bool) (tools : List Tool) :
    Except Err (List Tool) :=
  if s.initialized then
    if toolsOk then Except.ok tools else Except.error Err.toolLoadFailure
  else Except.error Err.notInitialized

/-- The outcomes the external collaborators would produce on one run:
the settings source on disk, the pre-existing process environment, the
machine's file system, and the results of handshake, capability query and
agent invocation. -/
structure World where
  settingsSource : Option (List (String × String))
  baseEnv : List (String × String)
  files : List String
  handshakeOk : Bool
  toolsOk : Bool
  tools : List Tool
  agentOk : Bool
  agentMessages : List Msg
deriving Repr

/-- The process environment after the configuration step. -/
def envAfter (w : World) : List (String × String) :=
  load_dotenv w.settingsSource w.baseEnv

/-- The startup banner printed first by `main()`. -/
def bannerLine : String := "Hello from langchain-mcp-adapter!"

/-- The confirmation printed right after `session.initialize()` returns. -/
def sessionLine : String := "session initialized"

/-- Modelled from the spec: `session.initialize()` (external) performs the
handshake; "handshake failure ... surfaces as a fatal error; not retried". -/
def initSession (w : World) (s : ClientSession) : Except Err ClientSession :=
  if w.handshakeOk then Except.ok { s with initialized := true }
  else Except.error Err.handshakeFailure

/-- The body of the two nested `async with` scopes of `main()`: session
construction, handshake, confirmation line, capability fetch, capability
line, agent construction and invocation, and the final answer print reading
`result["messages"][-1].content` with no guard. -/
def sessionBody (w : World) : List Event × Except Err Unit :=
  match initSession w mkSession with
  | Except.error e => ([], Except.error e)
  | Except.ok s1 =>
    let tr1 : List Event :=
      [Event.handshakeDone, Event.printedLine sessionLine]
    match load_mcp_tools s1 w.toolsOk w.tools with
    | Except.error e => (tr1 ++ [Event.capabilityFetch], Except.error e)
    | Except.ok tools =>
      let tr2 : List Event := tr1 ++
        [Event.capabilityFetch, Event.printedToolNames (tools.map Tool.name)]
      if w.agentOk then
        match w.agentMessages.getLast? with
        | some m =>
            (tr2 ++ [Event.agentInvoked, Event.printedAnswer m.content],
             Except.ok ())
        | none => (tr2 ++ [Event.agentInvoked], Except.error Err.emptyMessages)
      else (tr2 ++ [Event.agentInvoked], Except.error Err.agentFailure)

/-- `main()` after module load: prints the banner, then opens the stdio
transport scope.  Modelled from the spec: the transport (`stdio_client`,
external) fails to launch when the launch specification's target is absent
from the machine, and on scope exit — normal or erroneous — "the child
process is terminated and the streams closed". -/
def mainRun (w : World) : List Event × Except Err Unit :=
  let tr0 : List Event := [Event.printedLine bannerLine]
  if scriptPath ∈ w.files then
    let body := sessionBody w
    (tr0 ++ [Event.spawnedChild] ++ body.1 ++
      [Event.terminatedChild, Event.streamsClosed], body.2)
  else (tr0, Except.error Err.launchFailure)

/-- The whole process run: module load (configuration step, chat-client
construction, constant launch specification) followed by `main()` (embedded as `mainRun`).  A
module-load failure aborts before `main()` prints anything. -/
def runProgram (w : World) : List Event × Except Err Unit :=
  match chatAnthropic (envAfter w) with
  | Except.error e => ([], Except.error e)
  | Except.ok _ => mainRun w

/-- The process exit status: 0 when `asyncio.run(main())` returns, 1 when an
uncaught exception terminates the interpreter. -/
def exitCode (w : World) : Nat :=
  match (runProgram w).2 with
  | Except.ok _ => 0
  | Except.error _ => 1

/-- Is this event a line written to standard output? -/
def isOutput : Event → Bool
  | Event.printedLine _ => true
  | Event.printedToolNames _ => true
  | Event.printedAnswer _ => true
  | _ => false

/-- The standard-output portion of a trace, in order. -/
def outputsOf (tr : List Event) : List Event := tr.filter isOutput

/-- Is this event a use of the transport handle / session? -/
def transportUse : Event → Bool
  | Event.handshakeDone => true
  | Event.capabilityFetch => true
  | Event.agentInvoked => true
  | _ => false

/-- Scanning a trace: after the first `terminatedChild`, no transport use
occurs. -/
def noUseAfterExit : List Event → Bool
  | [] => true
  | Event.terminatedChild :: rest => rest.all (fun e => !transportUse e)
  | _ :: rest => noUseAfterExit rest

/-- Scanning a trace: the first of `capabilityFetch` / `handshakeDone` to
occur, if any, is `handshakeDone` — the capability list is never fetched
before the handshake has completed. -/
def fetchAfterHandshake : List Event → Bool
  | [] => true
  | Event.capabilityFetch :: _ => false
  | Event.handshakeDone :: _ => true
  | _ :: rest => fetchAfterHandshake rest

/-- Following the spec's propagation policy (§7): the first collaborator
failure in step order, if any; the spec says the run's outcome is exactly
this failure, uncaught. -/
def firstFailure (w : World) : Option Err :=
  match getEnv (envAfter w) apiKeyName with
  | none => some Err.missingCredential
  | some _ =>
    if scriptPath ∈ w.files then
      if w.handshakeOk then
        if w.toolsOk then
          if w.agentOk then
            match w.agentMessages.getLast? with
            | none => some Err.emptyMessages
            | some _ => none
          else some Err.agentFailure
        else some Err.toolLoadFailure
      else some Err.handshakeFailure
    else some Err.launchFailure

/-- The outcome the spec's propagation policy predicts. -/
def cascadeOutcome (w : World) : Except Err Unit :=
  match firstFailure w with
  | none => Except.ok ()
  | some e => Except.error e

/-! ## Environment-map lemmas -/

theorem getEnv_setEnv_self (e : List (String × String)) (k v : String) :
    getEnv (setEnv e k v) k = some v := by
  induction e with
  | nil => simp [setEnv, getEnv]
  | cons p rest ih =>
    obtain ⟨k0, v0⟩ := p
    by_cases hk : k0 = k
    · simp [setEnv, hk, getEnv]
    · simp [setEnv, hk, getEnv, ih]

theorem getEnv_setEnv_ne (e : List (String × String)) (k v k' : String)
    (h : k' ≠ k) : getEnv (setEnv e k v) k' = getEnv e k' := by
  induction e with
  | nil => simp [setEnv, getEnv, Ne.symm h]
  | cons p rest ih =>
    obtain ⟨k0, v0⟩ := p
    by_cases hk : k0 = k
    · subst hk
      simp [setEnv, getEnv, Ne.symm h]
    · simp [setEnv, hk, getEnv, ih]

theorem getEnv_dotenvFold_of_none (kvs : List (String × String)) :
    ∀ (e : List (String × String)) (k : String), lastLookup kvs k = none →
      getEnv (kvs.foldl (fun e kv => setEnv e kv.1 kv.2) e) k = getEnv e k := by
  induction kvs with
  | nil => intro e k _; rfl
  | cons p rest ih =>
    intro e k h
    obtain ⟨k0, v0⟩ := p
    cases hrest : lastLookup rest k with
    | some v' => simp [lastLookup, hrest] at h
    | none =>
      simp only [lastLookup, hrest] at h
      have hk : ¬ k0 = k := by
        intro hk; rw [if_pos hk] at h; exact Option.some_ne_none _ h
      rw [List.foldl_cons, ih (setEnv e k0 v0) k hrest]
      exact getEnv_setEnv_ne e k0 v0 k (fun hh => hk hh.symm)

theorem getEnv_dotenvFold_of_some (kvs : List (String × String)) :
    ∀ (e : List (String × String)) (k v : String), lastLookup kvs k = some v →
      getEnv (kvs.foldl (fun e kv => setEnv e kv.1 kv.2) e) k = some v := by
  induction kvs with
  | nil => intro e k v h; simp [lastLookup] at h
  | cons p rest ih =>
    intro e k v h
    obtain ⟨k0, v0⟩ := p
    rw [List.foldl_cons]
    cases hrest : lastLookup rest k with
    | some v' =>
      have hv : v' = v := by
        simp only [lastLookup, hrest] at h
        exact Option.some.inj h
      rw [← hv]
      exact ih (setEnv e k0 v0) k v' hrest
    | none =>
      simp only [lastLookup, hrest] at h
      by_cases hk : k0 = k
      · rw [if_pos hk] at h
        have hv : v0 = v := Option.some.inj h
        subst hv; subst hk
        rw [getEnv_dotenvFold_of_none rest (setEnv e k0 v0) k0 hrest]
        exact getEnv_setEnv_self e k0 v0
      · rw [if_neg hk] at h
        exact Option.noConfusion h

theorem lastLookup_eq_none_of_not_mem (kvs : List (String × String))
    (k : String) (h : k ∉ kvs.map Prod.fst) : lastLookup kvs k = none := by
  induction kvs with
  | nil => rfl
  | cons p rest ih =>
    obtain ⟨k0, v0⟩ := p
    simp only [List.map_cons, List.mem_cons] at h
    push_neg at h
    simp only [lastLookup, ih h.2]
    exact if_neg (fun hh => h.1 hh.symm)

theorem lastLookup_of_nodup (kvs : List (String × String))
    (hnd : (kvs.map Prod.fst).Nodup) (k v : String) (hmem : (k, v) ∈ kvs) :
    lastLookup kvs k = some v := by
  induction kvs with
  | nil => simp at hmem
  | cons p rest ih =>
    obtain ⟨k0, v0⟩ := p
    rw [List.map_cons, List.nodup_cons] at hnd
    rcases List.mem_cons.mp hmem with hhead | htail
    · have hk : k = k0 := congrArg Prod.fst hhead
      have hv : v = v0 := congrArg Prod.snd hhead
      subst hk; subst hv
      simp [lastLookup, lastLookup_eq_none_of_not_mem rest k hnd.1]
    · simp only [lastLookup, ih hnd.2 htail]

/-! ## Shape of the run, case by case -/

theorem runProgram_noCred (w : World)
    (h : getEnv (envAfter w) apiKeyName = none) :
    runProgram w = ([], Except.error Err.missingCredential) := by
  simp [runProgram, chatAnthropic, h]

theorem runProgram_cred (w : World) (v : String)
    (h : getEnv (envAfter w) apiKeyName = some v) :
    runProgram w = mainRun w := by
  simp [runProgram, chatAnthropic, h]

theorem mainRun_noFile (w : World) (h : scriptPath ∉ w.files) :
    mainRun w = ([Event.printedLine bannerLine], Except.error Err.launchFailure) := by
  simp [mainRun, h]

theorem mainRun_file (w : World) (h : scriptPath ∈ w.files) :
    mainRun w =
      ([Event.printedLine bannerLine, Event.spawnedChild] ++ (sessionBody w).1 ++
        [Event.terminatedChild, Event.streamsClosed], (sessionBody w).2) := by
  simp [mainRun, h]

theorem sessionBody_noHandshake (w : World) (h : w.handshakeOk = false) :
    sessionBody w = ([], Except.error Err.handshakeFailure) := by
  simp [sessionBody, initSession, h]

theorem sessionBody_noTools (w : World) (h : w.handshakeOk = true)
    (h2 : w.toolsOk = false) :
    sessionBody w =
      ([Event.handshakeDone, Event.printedLine sessionLine,
        Event.capabilityFetch], Except.error Err.toolLoadFailure) := by
  simp [sessionBody, initSession, h, h2, load_mcp_tools, mkSession]

theorem sessionBody_noAgent (w : World) (h : w.handshakeOk = true)
    (h2 : w.toolsOk = true) (h3 : w.agentOk = false) :
    sessionBody w =
      ([Event.handshakeDone, Event.printedLine sessionLine,
        Event.capabilityFetch, Event.printedToolNames (w.tools.map Tool.name),
        Event.agentInvoked], Except.error Err.agentFailure) := by
  simp [sessionBody, initSession, h, h2, h3, load_mcp_tools, mkSession]

theorem sessionBody_noMessages (w : World) (h : w.handshakeOk = true)
    (h2 : w.toolsOk = true) (h3 : w.agentOk = true)
    (h4 : w.agentMessages.getLast? = none) :
    sessionBody w =
      ([Event.handshakeDone, Event.printedLine sessionLine,
        Event.capabilityFetch, Event.printedToolNames (w.tools.map Tool.name),
        Event.agentInvoked], Except.error Err.emptyMessages) := by
  simp [sessionBody, initSession, h, h2, h3, h4, load_mcp_tools, mkSession]

theorem sessionBody_success (w : World) (m : Msg) (h : w.handshakeOk = true)
    (h2 : w.toolsOk = true) (h3 : w.agentOk = true)
    (h4 : w.agentMessages.getLast? = some m) :
    sessionBody w =
      ([Event.handshakeDone, Event.printedLine sessionLine,
        Event.capabilityFetch, Event.printedToolNames (w.tools.map Tool.name),
        Event.agentInvoked, Event.printedAnswer m.content], Except.ok ()) := by
  simp [sessionBody, initSession, h, h2, h3, h4, load_mcp_tools, mkSession]

/-! ## Concrete worlds used by the witnesses -/

/-- A world in which every collaborator succeeds. -/
def wOk : World :=
  { settingsSource := some [(apiKeyName, "test-key")]
  , baseEnv := []
  , files := [scriptPath]
  , handshakeOk := true
  , toolsOk := true
  , tools := [{ name := "add" }]
  , agentOk := true
  , agentMessages :=
      [{ role := "human", content := "What is 2 + 2?" },
       { role := "assistant", content := "2 + 2 = 4" }] }

/-- A world whose machine lacks the tool-server script. -/
def wNoFile : World :=
  { wOk with files := [] }

/-- A world with no settings source and no credential in the environment. -/
def wNoCred : World :=
  { wOk with settingsSource := some [], baseEnv := [] }

/-! ## Claim theorems -/

theorem runProgram_outcome (w : World) :
    (runProgram w).2 = cascadeOutcome w := by
  rcases hc : getEnv (envAfter w) apiKeyName with _ | v
  · rw [runProgram_noCred w hc]
    simp [cascadeOutcome, firstFailure, hc]
  · rw [runProgram_cred w v hc]
    by_cases hf : scriptPath ∈ w.files
    · rw [mainRun_file w hf]
      cases hh : w.handshakeOk with
      | false =>
        rw [sessionBody_noHandshake w hh]
        simp [cascadeOutcome, firstFailure, hc, hf, hh]
      | true =>
        cases ht : w.toolsOk with
        | false =>
          rw [sessionBody_noTools w hh ht]
          simp [cascadeOutcome, firstFailure, hc, hf, hh, ht]
        | true =>
          cases ha : w.agentOk with
          | false =>
            rw [sessionBody_noAgent w hh ht ha]
            simp [cascadeOutcome, firstFailure, hc, hf, hh, ht, ha]
          | true =>
            rcases hm : w.agentMessages.getLast? with _ | m
            · rw [sessionBody_noMessages w hh ht ha hm]
              simp [cascadeOutcome, firstFailure, hc, hf, hh, ht, ha, hm]
            · rw [sessionBody_success w m hh ht ha hm]
              simp [cascadeOutcome, firstFailure, hc, hf, hh, ht, ha, hm]
    · rw [mainRun_noFile w hf]
      simp [cascadeOutcome, firstFailure, hc, hf]

/-- C4: no failure of any collaborator is caught or retried inside this
repository's logic — the run's outcome is exactly the first failure in step
order (configuration/credential, launch, handshake, capability query, agent
invocation, empty message list), propagated unchanged; the process exits 0
exactly when no step failed and exits nonzero (1) otherwise. -/
theorem failure_propagation_policy (w : World) :
    (runProgram w).2 = cascadeOutcome w
    ∧ exitCode w = (if firstFailure w = none then 0 else 1) := by
  refine ⟨runProgram_outcome w, ?_⟩
  rw [exitCode, runProgram_outcome w, cascadeOutcome]
  rcases firstFailure w with _ | e <;> simp

/-- C1: the capability list is never fetched before the session handshake
has completed — in every run's trace the capability fetch is preceded by a
completed handshake; a fresh session is uninitialized, and the capability
query on a session whose handshake has not completed fails fatally with
`notInitialized` instead of returning any (partial or empty) list. -/
theorem capability_query_ordering :
    (∀ w : World, fetchAfterHandshake (runProgram w).1 = true)
    ∧ mkSession.initialized = false
    ∧ (∀ (toolsOk : Bool) (tools : List Tool),
        load_mcp_tools mkSession toolsOk tools
          = Except.error Err.notInitialized) := by
  refine ⟨?_, rfl, fun _ _ => rfl⟩
  intro w
  rcases hc : getEnv (envAfter w) apiKeyName with _ | v
  · rw [runProgram_noCred w hc]; rfl
  · rw [runProgram_cred w v hc]
    by_cases hf : scriptPath ∈ w.files
    · rw [mainRun_file w hf]
      cases hh : w.handshakeOk with
      | false => rw [sessionBody_noHandshake w hh]; rfl
      | true =>
        cases ht : w.toolsOk with
        | false => rw [sessionBody_noTools w hh ht]; rfl
        | true =>
          cases ha : w.agentOk with
          | false => rw [sessionBody_noAgent w hh ht ha]; rfl
          | true =>
            rcases hm : w.agentMessages.getLast? with _ | m
            · rw [sessionBody_noMessages w hh ht ha hm]; rfl
            · rw [sessionBody_success w m hh ht ha hm]; rfl
    · rw [mainRun_noFile w hf]; rfl

/-- C6: when the launch specification's target does not exist on the
machine, the run exits with a non-zero status (1) and the "session
initialized" line is never printed. -/
theorem missing_executable_behavior (w : World) (h : scriptPath ∉ w.files) :
    exitCode w = 1 ∧ Event.printedLine sessionLine ∉ (runProgram w).1 := by
  rcases hc : getEnv (envAfter w) apiKeyName with _ | v
  · rw [exitCode, runProgram_noCred w hc]
    exact ⟨rfl, by simp [runProgram_noCred w hc]⟩
  · have hrw : runProgram w
        = ([Event.printedLine bannerLine], Except.error Err.launchFailure) := by
      rw [runProgram_cred w v hc, mainRun_noFile w h]
    constructor
    · rw [exitCode, hrw]
    · rw [hrw]
      intro hmem
      have : sessionLine = bannerLine := by
        simpa using hmem
      exact absurd this (by decide)

theorem missing_executable_behavior_witness :
    scriptPath ∉ wNoFile.files
    ∧ (exitCode wNoFile = 1
        ∧ Event.printedLine sessionLine ∉ (runProgram wNoFile).1) :=
  ⟨by decide, missing_executable_behavior wNoFile (by decide)⟩

/-- C9: the launch specification is a module-load-time constant whose
command is the string "python" and whose argument list is exactly one
absolute path under /Users/kohei/ ending in math_server.py — a file name
that belongs to no file of this repository's source tree — and any run on a
machine that does not have that exact path fails rather than completing. -/
theorem launch_spec_constant :
    stdio_server_params = { command := "python", args := [scriptPath] }
    ∧ stdio_server_params.args.length = 1
    ∧ scriptPath = "/Users/kohei/"
        ++ "source-code/ai-practice/langchain-mcp-adapter/servers/"
        ++ "math_server.py"
    ∧ "math_server.py" ∉ repoSourceFileNames
    ∧ (∀ w : World, scriptPath ∉ w.files →
        (runProgram w).2 ≠ Except.ok ()) := by
  refine ⟨rfl, rfl, by decide, by decide, ?_⟩
  intro w h hok
  rcases hc : getEnv (envAfter w) apiKeyName with _ | v
  · rw [runProgram_noCred w hc] at hok
    exact Except.noConfusion hok
  · rw [runProgram_cred w v hc, mainRun_noFile w h] at hok
    exact Except.noConfusion hok

theorem launch_spec_constant_witness :
    scriptPath ∉ wNoFile.files ∧ (runProgram wNoFile).2 ≠ Except.ok () :=
  ⟨by decide, launch_spec_constant.2.2.2.2 wNoFile (by decide)⟩

/-- C2: the configuration step runs before the chat client is constructed,
and the chat client is constructed before any child process is launched:
when the credential is absent from the base environment and the settings
source does not supply it, the run aborts with `missingCredential` and the
trace contains no `spawnedChild` event (indeed is empty); conversely the
client reads the environment as left by the configuration step, so a
settings source that supplies the credential makes construction succeed. -/
theorem config_client_spawn_ordering (w : World)
    (h1 : getEnv w.baseEnv apiKeyName = none)
    (h2 : ∀ kvs, w.settingsSource = some kvs →
        lastLookup kvs apiKeyName = none) :
    (runProgram w = ([], Except.error Err.missingCredential)
      ∧ Event.spawnedChild ∉ (runProgram w).1)
    ∧ ∀ (w' : World) (kvs : List (String × String)) (v : String),
        w'.settingsSource = some kvs → lastLookup kvs apiKeyName = some v →
        chatAnthropic (envAfter w') = Except.ok () := by
  have hc : getEnv (envAfter w) apiKeyName = none := by
    rcases hs : w.settingsSource with _ | kvs
    · rw [envAfter, hs, load_dotenv]
      exact h1
    · rw [envAfter, hs, load_dotenv]
      rw [getEnv_dotenvFold_of_none kvs w.baseEnv apiKeyName (h2 kvs hs)]
      exact h1
  refine ⟨⟨runProgram_noCred w hc, ?_⟩, ?_⟩
  · rw [runProgram_noCred w hc]
    simp
  · intro w' kvs v hs hv
    have : getEnv (envAfter w') apiKeyName = some v := by
      rw [envAfter, hs, load_dotenv]
      exact getEnv_dotenvFold_of_some kvs w'.baseEnv apiKeyName v hv
    rw [chatAnthropic, this]

theorem config_client_spawn_ordering_witness :
    getEnv wNoCred.baseEnv apiKeyName = none
    ∧ (∀ kvs, wNoCred.settingsSource = some kvs →
        lastLookup kvs apiKeyName = none)
    ∧ ((runProgram wNoCred = ([], Except.error Err.missingCredential)
          ∧ Event.spawnedChild ∉ (runProgram wNoCred).1)
        ∧ ∀ (w' : World) (kvs : List (String × String)) (v : String),
            w'.settingsSource = some kvs →
            lastLookup kvs apiKeyName = some v →
            chatAnthropic (envAfter w') = Except.ok ()) := by
  have h2 : ∀ kvs, wNoCred.settingsSource = some kvs →
      lastLookup kvs apiKeyName = none := by
    intro kvs h
    have : ([] : List (String × String)) = kvs := Option.some.inj h
    rw [← this]
    rfl
  exact ⟨rfl, h2, config_client_spawn_ordering wNoCred rfl h2⟩

/-- C3: on a successful run the standard output is exactly the startup
banner, the session-initialized confirmation, the discovered capability
names, and finally the answer text — the content of the last element of the
agent's terminal message sequence — in that order, and nothing else. -/
theorem success_stdout_shape (w : World)
    (h : (runProgram w).2 = Except.ok ()) :
    ∃ m, w.agentMessages.getLast? = some m
      ∧ outputsOf (runProgram w).1 =
          [Event.printedLine bannerLine, Event.printedLine sessionLine,
           Event.printedToolNames (w.tools.map Tool.name),
           Event.printedAnswer m.content] := by
  rcases hc : getEnv (envAfter w) apiKeyName with _ | v
  · rw [runProgram_noCred w hc] at h
    exact Except.noConfusion h
  · rw [runProgram_cred w v hc] at h ⊢
    by_cases hf : scriptPath ∈ w.files
    · rw [mainRun_file w hf] at h ⊢
      cases hh : w.handshakeOk with
      | false =>
        rw [sessionBody_noHandshake w hh] at h
        exact Except.noConfusion h
      | true =>
        cases ht : w.toolsOk with
        | false =>
          rw [sessionBody_noTools w hh ht] at h
          exact Except.noConfusion h
        | true =>
          cases ha : w.agentOk with
          | false =>
            rw [sessionBody_noAgent w hh ht ha] at h
            exact Except.noConfusion h
          | true =>
            rcases hm : w.agentMessages.getLast? with _ | m
            · rw [sessionBody_noMessages w hh ht ha hm] at h
              exact Except.noConfusion h
            · refine ⟨m, rfl, ?_⟩
              rw [sessionBody_success w m hh ht ha hm]
              simp [outputsOf, isOutput]
    · rw [mainRun_noFile w hf] at h
      exact Except.noConfusion h

theorem success_stdout_shape_witness :
    (runProgram wOk).2 = Except.ok ()
    ∧ ∃ m, wOk.agentMessages.getLast? = some m
        ∧ outputsOf (runProgram wOk).1 =
            [Event.printedLine bannerLine, Event.printedLine sessionLine,
             Event.printedToolNames (wOk.tools.map Tool.name),
             Event.printedAnswer m.content] :=
  ⟨rfl, success_stdout_shape wOk rfl⟩

/-- C5: whenever the connection step's scope was entered (the child spawned),
the trace shows the child terminated and the streams closed by scope exit —
whether the scope exited normally or with a propagating error — and the
transport handle (handshake, capability fetch, agent invocation) is never
used after the termination event. -/
theorem transport_scope_cleanup (w : World)
    (h : Event.spawnedChild ∈ (runProgram w).1) :
    Event.terminatedChild ∈ (runProgram w).1
    ∧ Event.streamsClosed ∈ (runProgram w).1
    ∧ noUseAfterExit (runProgram w).1 = true := by
  rcases hc : getEnv (envAfter w) apiKeyName with _ | v
  · rw [runProgram_noCred w hc] at h
    simp at h
  · rw [runProgram_cred w v hc] at h ⊢
    by_cases hf : scriptPath ∈ w.files
    · rw [mainRun_file w hf]
      cases hh : w.handshakeOk with
      | false =>
        rw [sessionBody_noHandshake w hh]
        exact ⟨by simp, by simp, rfl⟩
      | true =>
        cases ht : w.toolsOk with
        | false =>
          rw [sessionBody_noTools w hh ht]
          exact ⟨by simp, by simp, rfl⟩
        | true =>
          cases ha : w.agentOk with
          | false =>
            rw [sessionBody_noAgent w hh ht ha]
            exact ⟨by simp, by simp, rfl⟩
          | true =>
            rcases hm : w.agentMessages.getLast? with _ | m
            · rw [sessionBody_noMessages w hh ht ha hm]
              exact ⟨by simp, by simp, rfl⟩
            · rw [sessionBody_success w m hh ht ha hm]
              exact ⟨by simp, by simp, rfl⟩
    · rw [mainRun_noFile w hf] at h
      simp at h

theorem transport_scope_cleanup_witness :
    Event.spawnedChild ∈ (runProgram wOk).1
    ∧ (Event.terminatedChild ∈ (runProgram wOk).1
        ∧ Event.streamsClosed ∈ (runProgram wOk).1
        ∧ noUseAfterExit (runProgram wOk).1 = true) :=
  ⟨by decide, transport_scope_cleanup wOk (by decide)⟩

/-- C10: the final print reads `result["messages"][-1].content` with no
guard, so on every run that reaches the final step: with an empty message
sequence the run raises (`emptyMessages`) and prints no answer at all, and
with a non-empty sequence it completes and prints the last element's
content. -/
theorem final_print_requires_messages (w : World)
    (h : (getEnv (envAfter w) apiKeyName).isSome = true
        ∧ scriptPath ∈ w.files ∧ w.handshakeOk = true
        ∧ w.toolsOk = true ∧ w.agentOk = true) :
    (w.agentMessages = [] →
      (runProgram w).2 = Except.error Err.emptyMessages
      ∧ ∀ s, Event.printedAnswer s ∉ (runProgram w).1)
    ∧ (∀ m, w.agentMessages.getLast? = some m →
        (runProgram w).2 = Except.ok ()
        ∧ Event.printedAnswer m.content ∈ (runProgram w).1) := by
  obtain ⟨h1, hf, hh, ht, ha⟩ := h
  obtain ⟨v, hv⟩ := Option.isSome_iff_exists.mp h1
  constructor
  · intro hempty
    have hm : w.agentMessages.getLast? = none := by rw [hempty]; rfl
    rw [runProgram_cred w v hv, mainRun_file w hf,
      sessionBody_noMessages w hh ht ha hm]
    exact ⟨rfl, fun s => by simp⟩
  · intro m hm
    rw [runProgram_cred w v hv, mainRun_file w hf,
      sessionBody_success w m hh ht ha hm]
    exact ⟨rfl, by simp⟩

theorem final_print_requires_messages_witness :
    ((getEnv (envAfter wOk) apiKeyName).isSome = true
      ∧ scriptPath ∈ wOk.files ∧ wOk.handshakeOk = true
      ∧ wOk.toolsOk = true ∧ wOk.agentOk = true)
    ∧ ((wOk.agentMessages = [] →
          (runProgram wOk).2 = Except.error Err.emptyMessages
          ∧ ∀ s, Event.printedAnswer s ∉ (runProgram wOk).1)
        ∧ ∀ m, wOk.agentMessages.getLast? = some m →
            (runProgram wOk).2 = Except.ok ()
            ∧ Event.printedAnswer m.content ∈ (runProgram wOk).1) :=
  ⟨by refine ⟨by decide, by decide, rfl, rfl, rfl⟩,
   final_print_requires_messages wOk
     ⟨by decide, by decide, rfl, rfl, rfl⟩⟩

theorem setEnv_id (e : List (String × String)) (k v : String)
    (h : getEnv e k = some v) : setEnv e k v = e := by
  induction e with
  | nil => simp [getEnv] at h
  | cons p rest ih =>
    obtain ⟨k0, v0⟩ := p
    by_cases hk : k0 = k
    · subst hk
      rw [getEnv, if_pos rfl] at h
      have : v0 = v := Option.some.inj h
      subst this
      rw [setEnv, if_pos rfl]
    · rw [getEnv, if_neg hk] at h
      rw [setEnv, if_neg hk, ih h]

theorem foldl_setEnv_id (kvs : List (String × String)) :
    ∀ e : List (String × String),
      (∀ p ∈ kvs, getEnv e p.1 = some p.2) →
      kvs.foldl (fun e kv => setEnv e kv.1 kv.2) e = e := by
  induction kvs with
  | nil => intro e _; rfl
  | cons p rest ih =>
    intro e h
    obtain ⟨k0, v0⟩ := p
    rw [List.foldl_cons]
    have h0 : setEnv e k0 v0 = e := setEnv_id e k0 v0 (h (k0, v0) (by simp))
    rw [h0]
    exact ih e (fun q hq => h q (List.mem_cons_of_mem _ hq))

/-- C7: the configuration step's contract — for a well-formed settings
source every key of the source is afterwards readable from the process
environment with its exact string value; the step is idempotent (verbatim
for well-formed sources, and on every environment read for arbitrary ones);
and an absent settings source is not an error and changes nothing. -/
theorem dotenv_contract :
    (∀ (kvs env : List (String × String)) (k v : String),
        wellFormedSource kvs → (k, v) ∈ kvs →
        getEnv (load_dotenv (some kvs) env) k = some v)
    ∧ (∀ (kvs env : List (String × String)), wellFormedSource kvs →
        load_dotenv (some kvs) (load_dotenv (some kvs) env)
          = load_dotenv (some kvs) env)
    ∧ (∀ (source : Option (List (String × String)))
        (env : List (String × String)) (k : String),
        getEnv (load_dotenv source (load_dotenv source env)) k
          = getEnv (load_dotenv source env) k)
    ∧ (∀ env : List (String × String), load_dotenv none env = env) := by
  have part1 : ∀ (kvs env : List (String × String)) (k v : String),
      wellFormedSource kvs → (k, v) ∈ kvs →
      getEnv (load_dotenv (some kvs) env) k = some v := by
    intro kvs env k v hwf hmem
    rw [load_dotenv]
    exact getEnv_dotenvFold_of_some kvs env k v
      (lastLookup_of_nodup kvs hwf k v hmem)
  refine ⟨part1, ?_, ?_, fun env => rfl⟩
  · intro kvs env hwf
    rw [load_dotenv, load_dotenv]
    exact foldl_setEnv_id kvs _
      (fun p hp => part1 kvs env p.1 p.2 hwf hp)
  · intro source env k
    rcases source with _ | kvs
    · rfl
    · rw [load_dotenv, load_dotenv]
      rcases hl : lastLookup kvs k with _ | v
      · rw [getEnv_dotenvFold_of_none kvs _ k hl]
      · rw [getEnv_dotenvFold_of_some kvs _ k v hl,
          getEnv_dotenvFold_of_some kvs _ k v hl]

theorem dotenv_contract_witness :
    wellFormedSource [(apiKeyName, "secret-value")]
    ∧ (apiKeyName, "secret-value") ∈ [(apiKeyName, "secret-value")]
    ∧ getEnv (load_dotenv (some [(apiKeyName, "secret-value")]) [])
        apiKeyName = some "secret-value" :=
  ⟨by simp [wellFormedSource], by simp,
   dotenv_contract.1 [(apiKeyName, "secret-value")] [] apiKeyName
     "secret-value" (by simp [wellFormedSource]) (by simp)⟩
